import Mathlib

/-!
Verification development for the S3 secure-baseline tool
(source: src/s3_secure_baseline.py).

The Python program reconciles two controls on each S3 bucket: a
transport-deny bucket-policy statement and access logging to a central
log bucket.  We shallowly embed the reconciliation core:

* JSON-like policy documents are modelled by the inductive type `JVal`
  (Python dicts become association lists, `None` becomes `JVal.none`).
* Python attribute access `d.get(k, default)` is modelled by `pyGetD`,
  which fails with `PyErr.attributeError` when the receiver is not a
  dict, exactly as CPython raises `AttributeError`.
* The S3 collaborators are modelled by explicit data: a policy read is a
  `PolicyReadResult` (missing-policy signal, other client error, or a
  parsed document), logging configuration lives in a `LogStore`; write
  failures are modelled by boolean `putFails` flags, matching the
  `ClientError` paths of the source.
* Functions that can raise an uncaught Python exception return
  `Except PyErr`; an `Except.error` value models an exception
  propagating out of the function (the source catches only
  `botocore.exceptions.ClientError`).

Logging/display-only code (`logger.*`, `show_policy`, `show_logging`)
has no observable effect on the returned values or on the stores and is
omitted.
-/

/-- JSON-like values as produced by `json.loads` plus Python `None`. -/
inductive JVal where
  | none : JVal
  | str : String → JVal
  | arr : List JVal → JVal
  | obj : List (String × JVal) → JVal

/-- Python exceptions that can escape the modelled functions. -/
inductive PyErr where
  | attributeError : PyErr
  | typeError : PyErr
  | clientError : String → PyErr
deriving DecidableEq

/-- Lookup in a Python dict (keys are unique in a real dict, so
first-match lookup is the dict semantics). -/
def dictGet : List (String × JVal) → String → Option JVal
  | [], _ => Option.none
  | (k, v) :: rest, key => if k == key then some v else dictGet rest key

/-- Python `d[k] = v`: replace the value in place if the key exists
(dict update keeps insertion position), else append the new key. -/
def setField : List (String × JVal) → String → JVal → List (String × JVal)
  | [], k, v => [(k, v)]
  | (k', v') :: rest, k, v =>
      if k' == k then (k, v) :: rest else (k', v') :: setField rest k v

/-- Python `d[k] = v` on a `JVal`; only ever applied to dicts here. -/
def dictSet : JVal → String → JVal → JVal
  | .obj fs, k, v => .obj (setField fs k v)
  | j, _, _ => j

/-- Python `x.get(k, default)`: raises `AttributeError` unless `x` is a
dict; returns `default` when the key is absent. -/
def pyGetD : JVal → String → JVal → Except PyErr JVal
  | .obj fs, k, d => .ok ((dictGet fs k).getD d)
  | _, _, _ => .error .attributeError

/-- Python `x.get(k)` (default `None`). -/
def pyGet (v : JVal) (k : String) : Except PyErr JVal := pyGetD v k .none

/-- Python `x == "s"` for our values: equal exactly when `x` is that
string (Python equality between different types is `False`). -/
def JVal.isStrEq : JVal → String → Bool
  | .str s, t => s == t
  | _, _ => false

/-- Python `isinstance(x, list)`. -/
def JVal.isList : JVal → Bool
  | .arr _ => true
  | _ => false

/-- Python `isinstance(x, dict)`. -/
def JVal.isDict : JVal → Bool
  | .obj _ => true
  | _ => false

/-- Python iteration `for stmt in x`: lists yield elements, dicts yield
their keys, strings yield one-character strings, `None` raises
`TypeError`. -/
def asIter : JVal → Except PyErr (List JVal)
  | .arr xs => .ok xs
  | .obj fs => .ok (fs.map (fun p => JVal.str p.1))
  | .str s => .ok (s.data.map (fun c => JVal.str (String.singleton c)))
  | .none => .error .typeError

/-- Outcome of `s3_client.get_bucket_policy` as seen by
`get_bucket_policy` (lines 189-198): the dedicated no-policy signal, any
other `ClientError` (such as `AccessDenied`), or a parsed document. -/
inductive PolicyReadResult where
  | noSuchPolicy : PolicyReadResult
  | failure : String → PolicyReadResult
  | doc : JVal → PolicyReadResult

/-- `get_bucket_policy` (lines 189-198): returns the parsed policy, or
`None` both for the `NoSuchBucketPolicy` signal and for every other
`ClientError` (the error is only logged). -/
def get_bucket_policy : PolicyReadResult → Option JVal
  | .doc p => some p
  | .noSuchPolicy => Option.none
  | .failure _ => Option.none

/-- `create_deny_http_statement` (lines 200-212). -/
def create_deny_http_statement (bucket_name : String) : JVal :=
  .obj [("Sid", .str "DenyInsecureTransport"),
        ("Effect", .str "Deny"),
        ("Principal", .str "*"),
        ("Action", .str "s3:*"),
        ("Resource", .arr [.str ("arn:aws:s3:::" ++ bucket_name),
                           .str ("arn:aws:s3:::" ++ bucket_name ++ "/*")]),
        ("Condition", .obj [("Bool", .obj [("aws:SecureTransport", .str "false")])])]

/-- The chained access
`stmt.get("Condition", \x7b\x7d).get("Bool", \x7b\x7d).get("aws:SecureTransport") == "false"`
that appears verbatim at lines 249-250 and again at lines 262-265:
raises `AttributeError` when an intermediate value is present but not a
dict. -/
def condChainCheck (stmt : JVal) : Except PyErr Bool :=
  match pyGetD stmt "Condition" (.obj []) with
  | .error e => .error e
  | .ok c =>
    match pyGetD c "Bool" (.obj []) with
    | .error e => .error e
    | .ok b =>
      match pyGet b "aws:SecureTransport" with
      | .error e => .error e
      | .ok st => .ok (st.isStrEq "false")

/-- One generator step of the `any(...)` test (lines 241-252): does this
statement count as a complete DenyInsecureTransport statement?  The
conjunction short-circuits exactly as Python `and` does; note that the
`Resource` values are never compared, only that it is a 2-element list,
and that the `Condition` check only inspects `Bool -> aws:SecureTransport`. -/
def hasCompleteCheck (stmt : JVal) : Except PyErr Bool :=
  match pyGet stmt "Sid" with
  | .error e => .error e
  | .ok sid =>
    if !sid.isStrEq "DenyInsecureTransport" then .ok false else
    match pyGet stmt "Effect" with
    | .error e => .error e
    | .ok eff =>
      if !eff.isStrEq "Deny" then .ok false else
      match pyGet stmt "Principal" with
      | .error e => .error e
      | .ok pr =>
        if !pr.isStrEq "*" then .ok false else
        match pyGet stmt "Action" with
        | .error e => .error e
        | .ok act =>
          if !act.isStrEq "s3:*" then .ok false else
          match pyGet stmt "Resource" with
          | .error e => .error e
          | .ok res =>
            if !res.isList then .ok false else
            match res with
            | .arr xs =>
              if xs.length != 2 then .ok false else
              match pyGet stmt "Condition" with
              | .error e => .error e
              | .ok cond =>
                if !cond.isDict then .ok false else condChainCheck stmt
            | _ => .ok false

/-- `any(...)` over the statements (lines 241-252): short-circuits on
the first `True`, and an exception raised while testing a statement
propagates. -/
def anyComplete : List JVal → Except PyErr Bool
  | [] => .ok false
  | stmt :: rest =>
    match hasCompleteCheck stmt with
    | .error e => .error e
    | .ok b => if b then .ok true else anyComplete rest

/-- `is_http_deny` (lines 260-266): deny effect with the
`aws:SecureTransport == "false"` condition; the chained `.get` calls
raise `AttributeError` when `Condition` (or its `Bool` value) is present
but not a dict. -/
def isHttpDenyCheck (stmt : JVal) : Except PyErr Bool :=
  match pyGet stmt "Effect" with
  | .error e => .error e
  | .ok eff =>
    if !eff.isStrEq "Deny" then .ok false else condChainCheck stmt

/-- `is_complete` (lines 270-276): the extra fields checked on a
statement already known to be an HTTP-deny statement. -/
def isCompleteCheck (stmt : JVal) : Except PyErr Bool :=
  match pyGet stmt "Sid" with
  | .error e => .error e
  | .ok sid =>
    if !sid.isStrEq "DenyInsecureTransport" then .ok false else
    match pyGet stmt "Principal" with
    | .error e => .error e
    | .ok pr =>
      if !pr.isStrEq "*" then .ok false else
      match pyGet stmt "Action" with
      | .error e => .error e
      | .ok act =>
        if !act.isStrEq "s3:*" then .ok false else
        match pyGet stmt "Resource" with
        | .error e => .error e
        | .ok res =>
          if !res.isList then .ok false else
          match res with
          | .arr xs => .ok (xs.length == 2)
          | _ => .ok false

/-- The `for stmt in statements` scan (lines 256-289): returns
`(has_incomplete_http_deny, new_statements)`.  Complete HTTP-deny
statements and non-HTTP-deny statements are kept in order; incomplete
HTTP-deny statements are dropped and flagged. -/
def scanStatements : List JVal → Except PyErr (Bool × List JVal)
  | [] => .ok (false, [])
  | stmt :: rest =>
    match isHttpDenyCheck stmt with
    | .error e => .error e
    | .ok isDeny =>
      if isDeny then
        match isCompleteCheck stmt with
        | .error e => .error e
        | .ok isComp =>
          match scanStatements rest with
          | .error e => .error e
          | .ok (inc, ns) =>
            if isComp then .ok (inc, stmt :: ns) else .ok (true, ns)
      else
        match scanStatements rest with
        | .error e => .error e
        | .ok (inc, ns) => .ok (inc, stmt :: ns)

/-- Return value of `apply_deny_http_policy`: the
`{"status": ..., "success": ...}` record. -/
structure ApplyResult where
  status : String
  success : Bool
deriving DecidableEq

/-- The fresh empty document synthesized when no policy exists
(line 230). -/
def emptyPolicy : JVal := .obj [("Version", .str "2012-10-17"), ("Statement", .arr [])]

/-- Lines 317-349 after the classification: under dry-run return the
computed status with `success = False` and write nothing; otherwise
attempt `put_bucket_policy` — a `ClientError` from the write is caught
and turned into status `error`, a successful write returns status
`applied` and the written document. -/
def finishWrite (policy1 : JVal) (status : String) (dry_run putFails : Bool) :
    Except PyErr (ApplyResult × Option JVal) :=
  if dry_run then .ok (⟨status, false⟩, Option.none)
  else if putFails then .ok (⟨"error", false⟩, Option.none)
  else .ok (⟨"applied", true⟩, some policy1)

/-- Lines 239-316 of `apply_deny_http_policy`, given the working
document `policy` and the initial `policy_status` (lines 227-237).
The second component of a successful result is the document passed to
`put_bucket_policy`, or `Option.none` when no write happened. -/
def reconcileDoc (bucket_name : String) (policy : JVal) (policy_status0 : String)
    (dry_run putFails : Bool) : Except PyErr (ApplyResult × Option JVal) :=
  match pyGetD policy "Statement" (.arr []) with
  | .error e => .error e
  | .ok stmtsVal =>
    match asIter stmtsVal with
    | .error e => .error e
    | .ok statements =>
      match anyComplete statements with
      | .error e => .error e
      | .ok has_complete =>
        match scanStatements statements with
        | .error e => .error e
        | .ok (has_incomplete, new_statements) =>
          if has_incomplete && has_complete then
            finishWrite (dictSet policy "Statement" (.arr new_statements))
              "needs_change" dry_run putFails
          else if has_complete && !has_incomplete then
            .ok (⟨"applied", true⟩, Option.none)
          else
            finishWrite
              (dictSet policy "Statement"
                (.arr (new_statements ++ [create_deny_http_statement bucket_name])))
              (if has_incomplete then "needs_change" else policy_status0)
              dry_run putFails

/-- Core of `apply_deny_http_policy` (lines 214-349) given the already
read policy (`None` or a document): a missing document is replaced by a
fresh empty one with initial status `not_applied`, an existing one
keeps its statements with initial status `needs_change`
(lines 225-237). -/
def reconcilePolicy (bucket_name : String) (policyOpt : Option JVal)
    (dry_run putFails : Bool) : Except PyErr (ApplyResult × Option JVal) :=
  reconcileDoc bucket_name
    (match policyOpt with
     | Option.none => emptyPolicy
     | some p => p)
    (match policyOpt with
     | Option.none => "not_applied"
     | some _ => "needs_change")
    dry_run putFails

/-- `apply_deny_http_policy` (lines 214-349): reads the policy through
`get_bucket_policy` (which swallows read errors) and reconciles.  An
`Except.error` result models an uncaught Python exception (the handler
at line 347 catches only `ClientError`). -/
def apply_deny_http_policy (bucket_name : String) (pread : PolicyReadResult)
    (dry_run putFails : Bool) : Except PyErr (ApplyResult × Option JVal) :=
  reconcilePolicy bucket_name (get_bucket_policy pread) dry_run putFails

/-- The document `apply_deny_http_policy` left behind: the written one
if a write happened, otherwise the unchanged document that was read. -/
def outputDoc (pread : PolicyReadResult) (written : Option JVal) : Option JVal :=
  match written with
  | some d => some d
  | Option.none => get_bucket_policy pread

/-- The policy document written for a bucket that had none. -/
def freshPolicy (bucket_name : String) : JVal :=
  .obj [("Version", .str "2012-10-17"),
        ("Statement", .arr [create_deny_http_statement bucket_name])]

/-- State of a bucket's logging configuration as held by the logging
store, together with the failure behaviour of the collaborator:
`getFails` makes `get_bucket_logging` raise a `ClientError`, `putFails`
makes `put_bucket_logging` raise one.  `conf` holds the
`(TargetBucket, TargetPrefix)` pair of the `LoggingEnabled` block (each
read with default `""` in the source), or `Option.none` when logging is
disabled. -/
structure LogStore where
  getFails : Bool
  conf : Option (String × String)
  putFails : Bool
deriving DecidableEq

/-- `s3_client.get_bucket_logging` as consumed by the source. -/
def get_bucket_logging (ls : LogStore) : Except PyErr (Option (String × String)) :=
  if ls.getFails then .error (.clientError "AccessDenied") else .ok ls.conf

/-- The canonical `(TargetBucket, TargetPrefix)` pair (lines 408-414). -/
def canonicalLoggingConfig (account_id : String) : String × String :=
  ("access-logs-" ++ account_id, "AWSLogs/" ++ account_id ++ "/S3/")

/-- `s3_client.put_bucket_logging`: fails with a `ClientError` when
`putFails`, otherwise installs the configuration. -/
def put_bucket_logging (ls : LogStore) (c : String × String) : Except PyErr LogStore :=
  if ls.putFails then .error (.clientError "AccessDenied")
  else .ok { ls with conf := some c }

/-- `get_logging_status` (lines 351-379): `error` on a read failure
(the `ClientError` is caught), `disabled` when no `LoggingEnabled`
block exists, `enabled` exactly when both target bucket and prefix
match the canonical values, otherwise `enabled_other`. -/
def get_logging_status (account_id : String) (ls : LogStore) : String :=
  match get_bucket_logging ls with
  | .error _ => "error"
  | .ok Option.none => "disabled"
  | .ok (some (tb, tp)) =>
      if tb == "access-logs-" ++ account_id && tp == "AWSLogs/" ++ account_id ++ "/S3/"
      then "enabled" else "enabled_other"

/-- `enable_access_logging` (lines 386-510): returns the success flag
and the resulting store.  `enabled` is a no-op; `enabled_other` and the
fall-through branch (disabled or read error) both write the canonical
configuration unless dry-run; a `ClientError` from the write is caught
at line 508 and turned into `False`. -/
def enable_access_logging (account_id : String) (ls : LogStore) (dry_run : Bool) :
    Bool × LogStore :=
  let logging_status := get_logging_status account_id ls
  if logging_status == "enabled" then (true, ls)
  else if logging_status == "enabled_other" then
    if dry_run then (true, ls)
    else
      match put_bucket_logging ls (canonicalLoggingConfig account_id) with
      | .ok ls1 => (true, ls1)
      | .error _ => (false, ls)
  else
    if dry_run then (true, ls)
    else
      match put_bucket_logging ls (canonicalLoggingConfig account_id) with
      | .ok ls1 => (true, ls1)
      | .error _ => (false, ls)

/-- The per-bucket result record built by `apply_baseline_to_bucket`
(lines 516-521). -/
structure BucketResult where
  deny_http : Bool
  deny_http_status : String
  access_logging : Bool
  logging_status : String
deriving DecidableEq

/-- The logging half of `apply_baseline_to_bucket` (lines 534-542):
read the status, run the reconciler, and re-read the status after a
successful run only under apply mode (dry-run keeps the pre-change
status). -/
def loggingPart (account_id : String) (ls : LogStore) (dry_run : Bool) :
    (String × Bool) × LogStore :=
  let status0 := get_logging_status account_id ls
  let (ok, ls1) := enable_access_logging account_id ls dry_run
  let finalStatus := if !dry_run && ok then get_logging_status account_id ls1 else status0
  ((finalStatus, ok), ls1)

/-- `apply_baseline_to_bucket` (lines 512-547).  The result carries the
`BucketResult` record, the document written to the policy store (if
any) and the resulting logging store.  An `Except.error` models an
uncaught exception escaping the function. -/
def apply_baseline_to_bucket (account_id bucket_name : String)
    (pread : PolicyReadResult) (policyPutFails : Bool) (ls : LogStore)
    (dry_run http_only logging_only : Bool) :
    Except PyErr (BucketResult × Option JVal × LogStore) :=
  let r0 : BucketResult := ⟨false, "unknown", false, "unknown"⟩
  match
    (if !logging_only then
      match apply_deny_http_policy bucket_name pread dry_run policyPutFails with
      | .error e => .error e
      | .ok (pres, written) =>
        .ok ({ r0 with deny_http := pres.success, deny_http_status := pres.status }, written)
     else
      .ok ({ r0 with deny_http_status := "skipped" }, Option.none) :
      Except PyErr (BucketResult × Option JVal)) with
  | .error e => .error e
  | .ok (r1, written) =>
    if !http_only then
      let ((finalStatus, ok), ls1) := loggingPart account_id ls dry_run
      .ok ({ r1 with access_logging := ok, logging_status := finalStatus }, written, ls1)
    else
      .ok ({ r1 with logging_status := "skipped" }, written, ls)

/-- The error record installed at lines 570-575 when processing a
bucket raises. -/
def errorResult : BucketResult := ⟨false, "error", false, "error"⟩

/-- Python truthiness of the strings stored in a result record. -/
def truthyStr (s : String) : Bool := s != ""

/-- `all(bucket_results.values())` (line 565): every field truthy. -/
def allValuesTruthy (r : BucketResult) : Bool :=
  r.deny_http && truthyStr r.deny_http_status &&
  r.access_logging && truthyStr r.logging_status

/-- `get_all_buckets` (lines 169-187): on a listing failure return `[]`
without touching the exclusion list; otherwise append the central log
bucket to the exclusion list unless already present, and filter the
listed buckets against the (updated) exclusion list.  Returns the kept
buckets and the updated exclusion list. -/
def get_all_buckets (listRes : Option (List String)) (account_id : String)
    (exclude_buckets : List String) : List String × List String :=
  match listRes with
  | Option.none => ([], exclude_buckets)
  | some buckets =>
    let log_bucket := "access-logs-" ++ account_id
    let ex := if exclude_buckets.contains log_bucket then exclude_buckets
              else exclude_buckets ++ [log_bucket]
    (buckets.filter (fun b => !ex.contains b), ex)

/-- `apply_baseline_to_all_buckets` (lines 549-580) over an abstract
per-bucket processing function: each bucket is processed in order; an
exception (`Except.error`) from one bucket is caught at line 568 and
recorded as `errorResult` without stopping the loop.  Returns the
result list and the `success_count`. -/
def apply_baseline_to_all_buckets (process : String → Except PyErr BucketResult)
    (buckets : List String) : List (String × BucketResult) × Nat :=
  buckets.foldl
    (fun acc b =>
      match process b with
      | .ok r => (acc.1 ++ [(b, r)], if allValuesTruthy r then acc.2 + 1 else acc.2)
      | .error _ => (acc.1 ++ [(b, errorResult)], acc.2))
    ([], 0)

/-- Outcome of `main` (lines 720-811): `usageError` models
`parser.error` (exit status 2, raised before the `S3SecureBaseline`
constructor runs, hence before any AWS call); `fatal` models an
exception reaching the top-level handler (exit 1); `report` is a normal
completion (exit 0). -/
inductive MainOutcome where
  | usageError : MainOutcome
  | fatal : MainOutcome
  | report : List (String × BucketResult) → MainOutcome

/-- `main` (lines 763-804) over an abstract per-bucket processing
function: the `--http-only`/`--logging-only` conflict check happens
first; with `--bucket` the named bucket is processed directly (no
exclusion filtering, and an exception propagates to the top-level
handler); otherwise all enumerated buckets are processed through the
exclusion filter with per-bucket exception recovery. -/
def main_model (http_only logging_only : Bool) (bucketArg : Option String)
    (listRes : Option (List String)) (account_id : String)
    (exclude : List String) (process : String → Except PyErr BucketResult) :
    MainOutcome :=
  if http_only && logging_only then .usageError
  else
    match bucketArg with
    | some b =>
      match process b with
      | .ok r => .report [(b, r)]
      | .error _ => .fatal
    | Option.none =>
      .report (apply_baseline_to_all_buckets process
        (get_all_buckets listRes account_id exclude).1).1

/-! ## Helper lemmas -/

theorem dictGet_setField (fs : List (String × JVal)) (k : String) (v : JVal) :
    dictGet (setField fs k v) k = some v := by
  induction fs with
  | nil => simp [setField, dictGet]
  | cons hd tl ih =>
    simp only [setField]
    by_cases h : hd.1 == k
    · simp [h, dictGet]
    · simp [h, dictGet, ih]

/-! ## C1: a non-"no policy" read failure is swallowed, not reported -/

/-- C1 counterexample input: the policy store refuses the read with
`AccessDenied` (not the `NoSuchBucketPolicy` signal). -/
def c1ReadFailure : PolicyReadResult := .failure "AccessDenied"

/-- C1 is false on the code: with an `AccessDenied` read failure,
`apply_deny_http_policy` under apply mode does not return status
`error`; it treats the bucket as having no policy and writes a fresh
policy document, returning status `applied` with `success = true`
(and under dry-run it returns `not_applied`, again not `error`). -/
theorem C1_counterexample :
    apply_deny_http_policy "mybucket" c1ReadFailure false false =
      .ok (⟨"applied", true⟩, some (freshPolicy "mybucket")) ∧
    apply_deny_http_policy "mybucket" c1ReadFailure true false =
      .ok (⟨"not_applied", false⟩, Option.none) ∧
    ("applied" : String) ≠ "error" ∧ ("not_applied" : String) ≠ "error" ∧
    some (freshPolicy "mybucket") ≠ (Option.none : Option JVal) :=
  ⟨rfl, rfl, by decide, by decide, by simp⟩

/-- C1 amended: for every bucket, a read failure with any error code
other than the 'no policy' signal is swallowed by `get_bucket_policy`
(which returns `None`), so `apply_deny_http_policy` treats it exactly
like an absent policy: under dry-run it returns status `not_applied`
with `success = false`; under apply mode it writes a fresh policy
document and returns `applied` with `success = true`; status `error`
arises only when the subsequent write itself fails. -/
theorem C1_amended (bucket code : String) (pf : Bool) :
    get_bucket_policy (.failure code) = Option.none ∧
    apply_deny_http_policy bucket (.failure code) true pf =
      .ok (⟨"not_applied", false⟩, Option.none) ∧
    apply_deny_http_policy bucket (.failure code) false false =
      .ok (⟨"applied", true⟩, some (freshPolicy bucket)) ∧
    apply_deny_http_policy bucket (.failure code) false true =
      .ok (⟨"error", false⟩, Option.none) :=
  ⟨rfl, rfl, rfl, rfl⟩

/-! ## C3: dry-run status vs apply-mode status -/

/-- C3 is false on the code: for a bucket with no policy document, the
dry-run call returns status `not_applied` while the same call under
apply mode returns status `applied` (after writing), so the dry-run
status does not equal the apply-mode status. -/
theorem C3_counterexample :
    apply_deny_http_policy "mybucket" .noSuchPolicy true false =
      .ok (⟨"not_applied", false⟩, Option.none) ∧
    apply_deny_http_policy "mybucket" .noSuchPolicy false false =
      .ok (⟨"applied", true⟩, some (freshPolicy "mybucket")) ∧
    ("not_applied" : String) ≠ "applied" :=
  ⟨rfl, rfl, by decide⟩

/-! ## C7: mutually exclusive flags are rejected up front -/

/-- C7: when both `http_only` and `logging_only` are set, `main`
rejects the run as a usage error (`parser.error`, exit status 2) before
the `S3SecureBaseline` constructor runs, hence before any external read
or write; the outcome is independent of every other input, in
particular of the per-bucket processing function, so no reconciler is
invoked for any bucket. -/
theorem C7_mutual_exclusion (bucketArg : Option String)
    (listRes : Option (List String)) (account : String) (exclude : List String)
    (process : String → Except PyErr BucketResult) :
    main_model true true bucketArg listRes account exclude process = .usageError := rfl

/-! ## C10: malformed Condition fields raise an uncaught AttributeError -/

/-- A deny statement whose `Condition` is a string rather than a
mapping. -/
def condNotDictStmt : JVal := .obj [("Effect", .str "Deny"), ("Condition", .str "bad")]

/-- A policy document containing `condNotDictStmt`. -/
def condNotDictDoc : JVal :=
  .obj [("Version", .str "2012-10-17"), ("Statement", .arr [condNotDictStmt])]

/-- A deny statement whose `Condition.Bool` value is a string rather
than a mapping. -/
def boolNotDictStmt : JVal :=
  .obj [("Effect", .str "Deny"), ("Condition", .obj [("Bool", .str "x")])]

/-- A policy document containing `boolNotDictStmt`. -/
def boolNotDictDoc : JVal :=
  .obj [("Version", .str "2012-10-17"), ("Statement", .arr [boolNotDictStmt])]

/-- C10: on a document holding a Deny statement whose `Condition` (or
whose `Condition.Bool` value) is present but not a mapping, the
incomplete-statement scan dereferences it with `.get` and
`apply_deny_http_policy` raises an uncaught `AttributeError` instead of
returning a status record (its handler catches only `ClientError`),
in every run mode. -/
theorem C10_attribute_error (dry pf : Bool) :
    apply_deny_http_policy "mybucket" (.doc condNotDictDoc) dry pf =
      .error .attributeError ∧
    apply_deny_http_policy "mybucket" (.doc boolNotDictDoc) dry pf =
      .error .attributeError :=
  ⟨rfl, rfl⟩

/-- Inversion of `reconcileDoc`: a successful run determines the
classification data and lands in one of the three decision branches
(cleanup of incomplete statements, already applied, or append a fresh
canonical statement). -/
theorem reconcileDoc_inv (b : String) (policy : JVal) (s0 : String) (dry pf : Bool)
    (res : ApplyResult) (w : Option JVal)
    (h : reconcileDoc b policy s0 dry pf = .ok (res, w)) :
    ∃ sv stmts hc inc ns,
      pyGetD policy "Statement" (.arr []) = .ok sv ∧
      asIter sv = .ok stmts ∧
      anyComplete stmts = .ok hc ∧
      scanStatements stmts = .ok (inc, ns) ∧
      ((inc = true ∧ hc = true ∧
         finishWrite (dictSet policy "Statement" (.arr ns)) "needs_change" dry pf
           = .ok (res, w)) ∨
       (hc = true ∧ inc = false ∧ res = ⟨"applied", true⟩ ∧ w = Option.none) ∨
       (hc = false ∧
         finishWrite (dictSet policy "Statement"
             (.arr (ns ++ [create_deny_http_statement b])))
           (if inc then "needs_change" else s0) dry pf = .ok (res, w))) := by
  unfold reconcileDoc at h
  split at h
  · exact absurd h (by simp)
  case _ sv hsv =>
    split at h
    · exact absurd h (by simp)
    case _ stmts hstmts =>
      split at h
      · exact absurd h (by simp)
      case _ hc hhc =>
        split at h
        · exact absurd h (by simp)
        case _ p inc ns hscan =>
          refine ⟨sv, stmts, hc, inc, ns, hsv, hstmts, hhc, hscan, ?_⟩
          split at h
          case isTrue hcond =>
            simp only [Bool.and_eq_true] at hcond
            exact Or.inl ⟨hcond.1, hcond.2, h⟩
          case isFalse hcond =>
            split at h
            case isTrue hcond2 =>
              simp only [Bool.and_eq_true, Bool.not_eq_true'] at hcond2
              refine Or.inr (Or.inl ⟨hcond2.1, hcond2.2, ?_, ?_⟩)
              · exact (Prod.mk.injEq _ _ _ _ ▸ (Except.ok.injEq _ _ ▸ h)).1.symm ▸ rfl
              · exact (Prod.mk.injEq _ _ _ _ ▸ (Except.ok.injEq _ _ ▸ h)).2.symm ▸ rfl
            case isFalse hcond2 =>
              have : hc = false := by
                cases hc <;> cases inc <;> simp_all
              exact Or.inr (Or.inr ⟨this, h⟩)

/-- When the classification finds a complete statement and no
incomplete one, `reconcileDoc` returns `applied` with no write, in
every run mode. -/
theorem reconcileDoc_early (b : String) (policy : JVal) (s0 : String) (dry pf : Bool)
    (sv : JVal) (stmts ns : List JVal)
    (h1 : pyGetD policy "Statement" (.arr []) = .ok sv)
    (h2 : asIter sv = .ok stmts) (h3 : anyComplete stmts = .ok true)
    (h4 : scanStatements stmts = .ok (false, ns)) :
    reconcileDoc b policy s0 dry pf = .ok (⟨"applied", true⟩, Option.none) := by
  simp [reconcileDoc, h1, h2, h3, h4]

theorem finishWrite_dry (p1 : JVal) (s : String) (pf : Bool) :
    finishWrite p1 s true pf = .ok (⟨s, false⟩, Option.none) := rfl

theorem finishWrite_apply (p1 : JVal) (s : String) :
    finishWrite p1 s false false = .ok (⟨"applied", true⟩, some p1) := rfl

/-- C3 amended: under dry-run `apply_deny_http_policy` returns the
computed pre-write classification (`applied`, `needs_change` or
`not_applied`), while under apply mode with a successful write the
returned status is always `applied` with `success = true`; the two
statuses therefore coincide exactly when the dry-run status is already
`applied` (in which case the apply-mode call returns the identical
result and also performs no write). -/
theorem C3_amended (bucket : String) (pread : PolicyReadResult)
    (res : ApplyResult) (w : Option JVal)
    (h : apply_deny_http_policy bucket pread true false = .ok (res, w)) :
    (res.status = "applied" ∨ res.status = "needs_change" ∨ res.status = "not_applied") ∧
    ∀ res2 w2, apply_deny_http_policy bucket pread false false = .ok (res2, w2) →
      res2.status = "applied" ∧ res2.success = true ∧
      (res.status = "applied" → res2 = res ∧ w2 = w) := by
  unfold apply_deny_http_policy reconcilePolicy at h ⊢
  obtain ⟨sv, stmts, hc, inc, ns, hsv, hstmts, hhc, hscan, hbr⟩ :=
    reconcileDoc_inv _ _ _ _ _ _ _ h
  have hstat : res.status = "applied" ∨ res.status = "needs_change" ∨
      res.status = "not_applied" := by
    rcases hbr with ⟨_, _, hf⟩ | ⟨_, _, hres, _⟩ | ⟨_, hf⟩
    · rw [finishWrite_dry] at hf
      cases hf
      exact Or.inr (Or.inl rfl)
    · rw [hres]
      exact Or.inl rfl
    · rw [finishWrite_dry] at hf
      cases hf
      split
      · exact Or.inr (Or.inl rfl)
      · cases pread with
        | noSuchPolicy => exact Or.inr (Or.inr rfl)
        | failure c => exact Or.inr (Or.inr rfl)
        | doc p => exact Or.inr (Or.inl rfl)
  refine ⟨hstat, ?_⟩
  intro res2 w2 h2
  obtain ⟨sv', stmts', hc', inc', ns', hsv', hstmts', hhc', hscan', hbr'⟩ :=
    reconcileDoc_inv _ _ _ _ _ _ _ h2
  simp only [hsv, Except.ok.injEq] at hsv'
  subst hsv'
  simp only [hstmts, Except.ok.injEq] at hstmts'
  subst hstmts'
  simp only [hhc, Except.ok.injEq] at hhc'
  subst hhc'
  simp only [hscan, Except.ok.injEq, Prod.mk.injEq] at hscan'
  obtain ⟨e1, e2⟩ := hscan'
  subst e1; subst e2
  have happl : res2.status = "applied" ∧ res2.success = true := by
    rcases hbr' with ⟨_, _, hf⟩ | ⟨_, _, hres, _⟩ | ⟨_, hf⟩
    · rw [finishWrite_apply] at hf; cases hf; exact ⟨rfl, rfl⟩
    · rw [hres]; exact ⟨rfl, rfl⟩
    · rw [finishWrite_apply] at hf; cases hf; exact ⟨rfl, rfl⟩
  refine ⟨happl.1, happl.2, ?_⟩
  intro hap
  rcases hbr with ⟨_, _, hf⟩ | ⟨hhc1, hinc1, hres, hw⟩ | ⟨hhc0, hf⟩
  · rw [finishWrite_dry] at hf
    cases hf
    simp at hap
  · subst hhc1
    rcases hbr' with ⟨hi, _, _⟩ | ⟨_, _, hres2, hw2⟩ | ⟨hhc0', _⟩
    · rw [hinc1] at hi; cases hi
    · rw [hres2, hres, hw2, hw]; exact ⟨rfl, rfl⟩
    · cases hhc0'
  · rw [finishWrite_dry] at hf
    cases hf
    simp only [ApplyResult.mk.injEq] at hap
    exfalso
    split at hap
    · simp at hap
    · cases pread with
      | noSuchPolicy => simp [get_bucket_policy] at hap
      | failure c => simp [get_bucket_policy] at hap
      | doc p => simp [get_bucket_policy] at hap

/-- Witness for `C3_amended` at a bucket with no policy document. -/
theorem C3_amended_witness :
    (("not_applied" : String) = "applied" ∨ ("not_applied" : String) = "needs_change" ∨
      ("not_applied" : String) = "not_applied") ∧
    ∀ res2 w2,
      apply_deny_http_policy "mybucket" .noSuchPolicy false false = .ok (res2, w2) →
      res2.status = "applied" ∧ res2.success = true ∧
      (("not_applied" : String) = "applied" →
        res2 = ⟨"not_applied", false⟩ ∧ w2 = Option.none) :=
  C3_amended "mybucket" .noSuchPolicy ⟨"not_applied", false⟩ Option.none rfl

/-! ## C5: idempotence of the transport-deny reconciler -/

theorem condChain_true_cond_dict (fs : List (String × JVal))
    (h : condChainCheck (.obj fs) = .ok true) :
    ∃ cfs, dictGet fs "Condition" = some (.obj cfs) := by
  simp only [condChainCheck, pyGetD, pyGet] at h
  rcases hdg : dictGet fs "Condition" with _ | v
  · rw [hdg] at h
    simp [dictGet, JVal.isStrEq] at h
  · rw [hdg] at h
    cases v with
    | obj cfs => exact ⟨cfs, rfl⟩
    | none => simp at h
    | str s => simp at h
    | arr xs => simp at h

theorem hasComplete_true_elim (s : JVal) (h : hasCompleteCheck s = .ok true) :
    isHttpDenyCheck s = .ok true ∧ isCompleteCheck s = .ok true := by
  cases s with
  | obj fs =>
    simp only [hasCompleteCheck, pyGet, pyGetD] at h
    repeat' split at h
    all_goals simp_all [isHttpDenyCheck, isCompleteCheck, pyGet, pyGetD]
  | none => simp [hasCompleteCheck, pyGet, pyGetD] at h
  | str s => simp [hasCompleteCheck, pyGet, pyGetD] at h
  | arr xs => simp [hasCompleteCheck, pyGet, pyGetD] at h

theorem hasComplete_of_checks (s : JVal) (c : Bool)
    (h1 : isHttpDenyCheck s = .ok true) (h2 : isCompleteCheck s = .ok c) :
    hasCompleteCheck s = .ok c := by
  cases s with
  | obj fs =>
    simp only [isHttpDenyCheck, pyGet, pyGetD] at h1
    split at h1
    · -- effect check failed: h1 : .ok false = .ok true
      simp at h1
    · -- h1 : condChainCheck (.obj fs) = .ok true
      obtain ⟨cfs, hcfs⟩ := condChain_true_cond_dict fs h1
      simp only [isCompleteCheck, pyGet, pyGetD] at h2
      simp only [hasCompleteCheck, pyGet, pyGetD]
      repeat' split at h2
      all_goals simp_all [hcfs, JVal.isDict]
      all_goals split
      · simp_all
      · cases c
        · rfl
        · simp_all
  | none => simp [isHttpDenyCheck, pyGet, pyGetD] at h1
  | str s => simp [isHttpDenyCheck, pyGet, pyGetD] at h1
  | arr xs => simp [isHttpDenyCheck, pyGet, pyGetD] at h1

theorem hasComplete_of_httpDeny_false (s : JVal)
    (h : isHttpDenyCheck s = .ok false) : hasCompleteCheck s = .ok false := by
  cases s with
  | obj fs =>
    simp only [isHttpDenyCheck, pyGet, pyGetD] at h
    simp only [hasCompleteCheck, pyGet, pyGetD]
    split at h
    · -- effect not Deny
      repeat' split
      all_goals simp_all
    · -- chain returned false
      repeat' split
      all_goals simp_all
  | none => simp [isHttpDenyCheck, pyGet, pyGetD] at h
  | str s => simp [isHttpDenyCheck, pyGet, pyGetD] at h
  | arr xs => simp [isHttpDenyCheck, pyGet, pyGetD] at h

def keptStmt (s : JVal) : Prop :=
  isHttpDenyCheck s = .ok false ∨
  (isHttpDenyCheck s = .ok true ∧ isCompleteCheck s = .ok true)

theorem keptStmt_hasComplete (s : JVal) (h : keptStmt s) :
    ∃ b, hasCompleteCheck s = .ok b := by
  rcases h with h | ⟨h1, h2⟩
  · exact ⟨false, hasComplete_of_httpDeny_false s h⟩
  · exact ⟨true, hasComplete_of_checks s true h1 h2⟩

theorem scan_kept_classified (xs : List JVal) (inc : Bool) (ns : List JVal)
    (h : scanStatements xs = .ok (inc, ns)) : ∀ s ∈ ns, keptStmt s := by
  induction xs generalizing inc ns with
  | nil =>
    simp only [scanStatements, Except.ok.injEq, Prod.mk.injEq] at h
    rw [← h.2]
    simp
  | cons hd tl ih =>
    unfold scanStatements at h
    split at h
    · exact absurd h (by simp)
    case _ isDeny hDeny =>
      by_cases hb : isDeny = true
      · subst hb
        rw [if_pos rfl] at h
        split at h
        · exact absurd h (by simp)
        case _ isComp hComp =>
          split at h
          · exact absurd h (by simp)
          case _ p inc2 ns2 hscan2 =>
            split at h
            case isTrue hcv =>
              simp only [Except.ok.injEq, Prod.mk.injEq] at h
              rw [← h.2]
              intro s hs
              rcases List.mem_cons.mp hs with e | hs2
              · subst e
                exact Or.inr ⟨hDeny, hcv ▸ hComp⟩
              · exact ih inc2 ns2 hscan2 s hs2
            case isFalse hcv =>
              simp only [Except.ok.injEq, Prod.mk.injEq] at h
              rw [← h.2]
              exact ih inc2 ns2 hscan2
      · rw [if_neg hb] at h
        split at h
        · exact absurd h (by simp)
        case _ p inc2 ns2 hscan2 =>
          simp only [Except.ok.injEq, Prod.mk.injEq] at h
          rw [← h.2]
          intro s hs
          rcases List.mem_cons.mp hs with e | hs2
          · subst e
            exact Or.inl (by simpa [hb] using hDeny)
          · exact ih inc2 ns2 hscan2 s hs2

theorem scan_fixed_point (ns : List JVal) (h : ∀ s ∈ ns, keptStmt s) :
    scanStatements ns = .ok (false, ns) := by
  induction ns with
  | nil => rfl
  | cons hd tl ih =>
    have hhd := h hd (List.mem_cons_self hd tl)
    have htl := ih (fun s hs => h s (List.mem_cons_of_mem hd hs))
    unfold scanStatements
    rcases hhd with hf | ⟨ht, hc⟩
    · rw [hf, htl]
      simp
    · rw [ht, hc, htl]
      simp

theorem anyComplete_true_exists (xs : List JVal) (h : anyComplete xs = .ok true) :
    ∃ s ∈ xs, hasCompleteCheck s = .ok true := by
  induction xs with
  | nil => simp [anyComplete] at h
  | cons hd tl ih =>
    unfold anyComplete at h
    split at h
    · exact absurd h (by simp)
    case _ b hb =>
      by_cases hbt : b = true
      · exact ⟨hd, List.mem_cons_self hd tl, hbt ▸ hb⟩
      · rw [if_neg hbt] at h
        obtain ⟨s, hs, hsc⟩ := ih h
        exact ⟨s, List.mem_cons_of_mem hd hs, hsc⟩

theorem scan_keeps_complete (xs : List JVal) (inc : Bool) (ns : List JVal)
    (h : scanStatements xs = .ok (inc, ns)) :
    ∀ s ∈ xs, hasCompleteCheck s = .ok true → s ∈ ns := by
  induction xs generalizing inc ns with
  | nil => simp
  | cons hd tl ih =>
    intro s hs hsc
    obtain ⟨hdeny, hcomp⟩ := hasComplete_true_elim s hsc
    unfold scanStatements at h
    rcases List.mem_cons.mp hs with e | hs2
    · subst e
      split at h
      · exact absurd h (by simp)
      case _ isDeny hDeny =>
        have hD : isDeny = true := by
          rw [hdeny] at hDeny
          injection hDeny with e2
          exact e2.symm
        subst hD
        rw [if_pos rfl] at h
        split at h
        · exact absurd h (by simp)
        case _ isComp hComp =>
          have hC : isComp = true := by
            rw [hcomp] at hComp
            injection hComp with e2
            exact e2.symm
          subst hC
          split at h
          · exact absurd h (by simp)
          case _ p inc2 ns2 hscan2 =>
            rw [if_pos rfl] at h
            simp only [Except.ok.injEq, Prod.mk.injEq] at h
            rw [← h.2]
            exact List.mem_cons_self s ns2
    · split at h
      · exact absurd h (by simp)
      case _ isDeny hDeny =>
        by_cases hb : isDeny = true
        · subst hb
          rw [if_pos rfl] at h
          split at h
          · exact absurd h (by simp)
          case _ isComp hComp =>
            split at h
            · exact absurd h (by simp)
            case _ p inc2 ns2 hscan2 =>
              split at h
              all_goals
                simp only [Except.ok.injEq, Prod.mk.injEq] at h
                rw [← h.2]
              · exact List.mem_cons_of_mem hd (ih inc2 ns2 hscan2 s hs2 hsc)
              · exact ih inc2 ns2 hscan2 s hs2 hsc
        · rw [if_neg hb] at h
          split at h
          · exact absurd h (by simp)
          case _ p inc2 ns2 hscan2 =>
            simp only [Except.ok.injEq, Prod.mk.injEq] at h
            rw [← h.2]
            exact List.mem_cons_of_mem hd (ih inc2 ns2 hscan2 s hs2 hsc)

theorem anyComplete_of_exists (xs : List JVal)
    (hall : ∀ s ∈ xs, ∃ b, hasCompleteCheck s = .ok b)
    (hex : ∃ s ∈ xs, hasCompleteCheck s = .ok true) :
    anyComplete xs = .ok true := by
  induction xs with
  | nil => simp at hex
  | cons hd tl ih =>
    obtain ⟨bhd, hbhd⟩ := hall hd (List.mem_cons_self hd tl)
    unfold anyComplete
    simp only [hbhd]
    by_cases hb : bhd = true
    · subst hb
      rfl
    · rw [if_neg hb]
      obtain ⟨s, hs, hsc⟩ := hex
      rcases List.mem_cons.mp hs with e | hs2
      · subst e
        rw [hbhd] at hsc
        simp only [Except.ok.injEq] at hsc
        exact absurd hsc hb
      · exact ih (fun s2 hs2b => hall s2 (List.mem_cons_of_mem hd hs2b)) ⟨s, hs2, hsc⟩

theorem pyGetD_ok_obj (v : JVal) (k : String) (dflt x : JVal)
    (h : pyGetD v k dflt = .ok x) : ∃ fs, v = .obj fs := by
  cases v with
  | obj fs => exact ⟨fs, rfl⟩
  | none => simp [pyGetD] at h
  | str s => simp [pyGetD] at h
  | arr xs => simp [pyGetD] at h

theorem canonical_kept (b : String) : keptStmt (create_deny_http_statement b) :=
  Or.inr ⟨rfl, rfl⟩

theorem canonical_hasComplete (b : String) :
    hasCompleteCheck (create_deny_http_statement b) = .ok true := rfl

theorem pyGetD_dictSet_stmt (pfs : List (String × JVal)) (v : JVal) :
    pyGetD (dictSet (.obj pfs) "Statement" v) "Statement" (.arr []) = .ok v := by
  simp [dictSet, pyGetD, dictGet_setField]

theorem C5_core (bucket : String) (policy : JVal) (s0 s1 : String)
    (res : ApplyResult) (written : Option JVal) (d : JVal)
    (h : reconcileDoc bucket policy s0 false false = .ok (res, written))
    (hd : written.getD policy = d) (dry pf : Bool) :
    reconcileDoc bucket d s1 dry pf = .ok (⟨"applied", true⟩, Option.none) := by
  obtain ⟨sv, stmts, hc, inc, ns, hsv, hstmts, hhc, hscan, hbr⟩ :=
    reconcileDoc_inv _ _ _ _ _ _ _ h
  obtain ⟨pfs, hpfs⟩ := pyGetD_ok_obj _ _ _ _ hsv
  subst hpfs
  have hkept := scan_kept_classified stmts inc ns hscan
  rcases hbr with ⟨hinc, hhc1, hf⟩ | ⟨hhc1, hinc, hres, hw⟩ | ⟨hhc0, hf⟩
  · -- cleanup branch: written = cleaned document, all complete ones kept
    rw [finishWrite_apply] at hf
    have hw : written = some (dictSet (.obj pfs) "Statement" (.arr ns)) := by
      injection hf with e
      injection e with e1 e2
      exact e2.symm
    rw [hw] at hd
    simp only [Option.getD_some] at hd
    subst hd
    subst hhc1
    obtain ⟨s, hsmem, hsc⟩ := anyComplete_true_exists stmts hhc
    have hsns : s ∈ ns := scan_keeps_complete stmts inc ns hscan s hsmem hsc
    refine reconcileDoc_early bucket _ s1 dry pf (.arr ns) ns ns
      (pyGetD_dictSet_stmt pfs (.arr ns)) rfl ?_ (scan_fixed_point ns hkept)
    exact anyComplete_of_exists ns
      (fun s2 hs2 => keptStmt_hasComplete s2 (hkept s2 hs2))
      ⟨s, hsns, hsc⟩
  · -- already-applied branch: d is the unchanged original document
    rw [hw] at hd
    simp only [Option.getD_none] at hd
    subst hd
    subst hhc1
    subst hinc
    exact reconcileDoc_early bucket _ s1 dry pf sv stmts ns hsv hstmts hhc hscan
  · -- append branch: written = kept statements plus a fresh canonical one
    rw [finishWrite_apply] at hf
    have hw : written = some (dictSet (.obj pfs) "Statement"
        (.arr (ns ++ [create_deny_http_statement bucket]))) := by
      injection hf with e
      injection e with e1 e2
      exact e2.symm
    rw [hw] at hd
    simp only [Option.getD_some] at hd
    subst hd
    have hkept2 : ∀ s ∈ ns ++ [create_deny_http_statement bucket], keptStmt s := by
      intro s hs
      rcases List.mem_append.mp hs with hs1 | hs2
      · exact hkept s hs1
      · rw [List.mem_singleton.mp hs2]
        exact canonical_kept bucket
    refine reconcileDoc_early bucket _ s1 dry pf
      (.arr (ns ++ [create_deny_http_statement bucket]))
      (ns ++ [create_deny_http_statement bucket])
      (ns ++ [create_deny_http_statement bucket])
      (pyGetD_dictSet_stmt pfs _) rfl ?_ (scan_fixed_point _ hkept2)
    refine anyComplete_of_exists _
      (fun s2 hs2 => keptStmt_hasComplete s2 (hkept2 s2 hs2)) ?_
    exact ⟨create_deny_http_statement bucket,
      List.mem_append.mpr (Or.inr (List.mem_singleton.mpr rfl)),
      canonical_hasComplete bucket⟩

theorem C5_idempotent (bucket : String) (pread : PolicyReadResult)
    (res : ApplyResult) (written : Option JVal) (d : JVal)
    (h : apply_deny_http_policy bucket pread false false = .ok (res, written))
    (hd : outputDoc pread written = some d) (dry pf : Bool) :
    apply_deny_http_policy bucket (.doc d) dry pf = .ok (⟨"applied", true⟩, Option.none) := by
  unfold apply_deny_http_policy reconcilePolicy at h ⊢
  cases hw : written with
  | some w =>
    rw [hw] at h hd
    unfold outputDoc at hd
    simp only [Option.some.injEq] at hd
    subst hd
    exact C5_core bucket _ _ "needs_change" res (some w) w h rfl dry pf
  | none =>
    rw [hw] at h hd
    unfold outputDoc at hd
    cases hget : get_bucket_policy pread with
    | none => rw [hget] at hd; exact absurd hd (by simp)
    | some p =>
      rw [hget] at h hd
      simp only [Option.some.injEq] at hd
      subst hd
      exact C5_core bucket p _ "needs_change" res Option.none p h rfl dry pf

/-- Witness for `C5_idempotent`: rerunning on the document written for
a bucket that had no policy yields `applied` with no write. -/
theorem C5_idempotent_witness :
    apply_deny_http_policy "mybucket" (.doc (freshPolicy "mybucket")) true false =
      .ok (⟨"applied", true⟩, Option.none) :=
  C5_idempotent "mybucket" .noSuchPolicy ⟨"applied", true⟩
    (some (freshPolicy "mybucket")) (freshPolicy "mybucket") rfl rfl true false

/-! ## C2: what the code actually counts as a "complete" statement -/

/-- Field lookup on a statement value (`Option.none` when the statement
is not a dict or lacks the key). -/
def jfield : JVal → String → Option JVal
  | .obj fs, k => dictGet fs k
  | _, _ => Option.none

/-- The statement's field `k` is exactly the string `v`. -/
def fieldIsStr (stmt : JVal) (k v : String) : Bool :=
  match jfield stmt k with
  | some (.str s) => s == v
  | _ => false

/-- The statement's `Resource` is a list of exactly two elements —
this is all the code checks about `Resource` (lines 246-247). -/
def resourceIsPair (stmt : JVal) : Bool :=
  match jfield stmt "Resource" with
  | some (.arr xs) => xs.length == 2
  | _ => false

/-- The statement's `Condition` is a mapping whose `Bool` entry maps
`aws:SecureTransport` to `"false"` — extra keys anywhere are allowed;
this is all the code checks about `Condition` (lines 248-250). -/
def condBoolSTFalse (stmt : JVal) : Bool :=
  match jfield stmt "Condition" with
  | some (.obj cfs) =>
    match (dictGet cfs "Bool").getD (.obj []) with
    | .obj bfs =>
      match dictGet bfs "aws:SecureTransport" with
      | some (.str s) => s == "false"
      | _ => false
    | _ => false
  | _ => false

/-- The field-level characterization of the code's "complete
DenyInsecureTransport statement" classification: canonical Sid, Effect,
Principal and Action strings, a 2-element `Resource` list whose values
are not inspected, and a `Condition.Bool.aws:SecureTransport = "false"`
entry with extra condition content permitted. -/
def completeFields (stmt : JVal) : Bool :=
  fieldIsStr stmt "Sid" "DenyInsecureTransport" && fieldIsStr stmt "Effect" "Deny" &&
  fieldIsStr stmt "Principal" "*" && fieldIsStr stmt "Action" "s3:*" &&
  resourceIsPair stmt && condBoolSTFalse stmt

theorem fieldIsStr_eq (fs : List (String × JVal)) (k v : String) :
    fieldIsStr (.obj fs) k v = ((dictGet fs k).getD .none).isStrEq v := by
  simp only [fieldIsStr, jfield]
  rcases dictGet fs k with _ | x
  · rfl
  · cases x <;> rfl

theorem isList_arr (v : JVal) (h : v.isList = true) : ∃ xs, v = .arr xs := by
  cases v with
  | arr xs => exact ⟨xs, rfl⟩
  | none => simp [JVal.isList] at h
  | str s => simp [JVal.isList] at h
  | obj fs => simp [JVal.isList] at h

/-- A successful run of the condition chain computes exactly
`condBoolSTFalse`. -/
theorem condChain_ok_eq_spec (fs : List (String × JVal)) (v : Bool)
    (h : condChainCheck (.obj fs) = .ok v) : v = condBoolSTFalse (.obj fs) := by
  rcases hc : dictGet fs "Condition" with _ | x
  · have hchain : condChainCheck (.obj fs) = .ok false := by
      simp [condChainCheck, pyGetD, pyGet, hc, dictGet, JVal.isStrEq]
    rw [hchain] at h
    injection h with e
    subst e
    simp [condBoolSTFalse, jfield, hc]
  · cases x with
    | obj cfs =>
      rcases hb : dictGet cfs "Bool" with _ | y
      · have hchain : condChainCheck (.obj fs) = .ok false := by
          simp [condChainCheck, pyGetD, pyGet, hc, hb, dictGet, JVal.isStrEq]
        rw [hchain] at h
        injection h with e
        subst e
        simp [condBoolSTFalse, jfield, hc, hb, dictGet]
      · cases y with
        | obj bfs =>
          rcases hst : dictGet bfs "aws:SecureTransport" with _ | z
          · have hchain : condChainCheck (.obj fs) = .ok false := by
              simp [condChainCheck, pyGetD, pyGet, hc, hb, hst, JVal.isStrEq]
            rw [hchain] at h
            injection h with e
            subst e
            simp [condBoolSTFalse, jfield, hc, hb, hst]
          · have hchain : condChainCheck (.obj fs) = .ok (z.isStrEq "false") := by
              simp [condChainCheck, pyGetD, pyGet, hc, hb, hst]
            rw [hchain] at h
            injection h with e
            subst e
            cases z <;> simp [condBoolSTFalse, jfield, hc, hb, hst, JVal.isStrEq]
        | none =>
          have hchain : condChainCheck (.obj fs) = .error .attributeError := by
            simp [condChainCheck, pyGetD, pyGet, hc, hb]
          rw [hchain] at h
          cases h
        | str s =>
          have hchain : condChainCheck (.obj fs) = .error .attributeError := by
            simp [condChainCheck, pyGetD, pyGet, hc, hb]
          rw [hchain] at h
          cases h
        | arr xs =>
          have hchain : condChainCheck (.obj fs) = .error .attributeError := by
            simp [condChainCheck, pyGetD, pyGet, hc, hb]
          rw [hchain] at h
          cases h
    | none =>
      have hchain : condChainCheck (.obj fs) = .error .attributeError := by
        simp [condChainCheck, pyGetD, pyGet, hc]
      rw [hchain] at h
      cases h
    | str s =>
      have hchain : condChainCheck (.obj fs) = .error .attributeError := by
        simp [condChainCheck, pyGetD, pyGet, hc]
      rw [hchain] at h
      cases h
    | arr xs =>
      have hchain : condChainCheck (.obj fs) = .error .attributeError := by
        simp [condChainCheck, pyGetD, pyGet, hc]
      rw [hchain] at h
      cases h

theorem condBoolSTFalse_not_dict (fs : List (String × JVal))
    (h : ((dictGet fs "Condition").getD JVal.none).isDict = false) :
    condBoolSTFalse (.obj fs) = false := by
  simp only [condBoolSTFalse, jfield]
  rcases hc : dictGet fs "Condition" with _ | x
  · rfl
  · rw [hc] at h
    simp only [Option.getD_some] at h
    cases x <;> simp_all [JVal.isDict]

theorem resourceIsPair_not_list (fs : List (String × JVal))
    (h : ((dictGet fs "Resource").getD JVal.none).isList = false) :
    resourceIsPair (.obj fs) = false := by
  simp only [resourceIsPair, jfield]
  rcases hr : dictGet fs "Resource" with _ | x
  · rfl
  · rw [hr] at h
    simp only [Option.getD_some] at h
    cases x <;> simp_all [JVal.isList]

theorem resourceIsPair_arr (fs : List (String × JVal)) (xs : List JVal)
    (h : (dictGet fs "Resource").getD JVal.none = .arr xs) :
    resourceIsPair (.obj fs) = (xs.length == 2) := by
  simp only [resourceIsPair, jfield]
  rcases hr : dictGet fs "Resource" with _ | x
  · rw [hr] at h
    simp at h
  · rw [hr] at h
    simp only [Option.getD_some] at h
    rw [h]

/-- Modelled from the spec (claim C2 wording): the `Resource` value is
exactly the ordered pair of the bucket's ARN and its `/*` variant. -/
def resourceExact (bucket_name : String) : JVal → Bool
  | .arr [.str a, .str b] =>
      a == "arn:aws:s3:::" ++ bucket_name &&
      b == "arn:aws:s3:::" ++ bucket_name ++ "/*"
  | _ => false

/-- Modelled from the spec (claim C2 wording): the `Condition` value is
exactly the one-entry mapping `Bool -> (aws:SecureTransport -> "false")`. -/
def condExact : JVal → Bool
  | .obj [(k1, .obj [(k2, .str v)])] =>
      k1 == "Bool" && k2 == "aws:SecureTransport" && v == "false"
  | _ => false

/-- Modelled from the spec (claim C2 wording): a statement matching the
canonical shape exactly for the given bucket, including the resource
ARN values and the exact condition mapping. -/
def specCanonicalComplete (bucket_name : String) (stmt : JVal) : Bool :=
  fieldIsStr stmt "Sid" "DenyInsecureTransport" && fieldIsStr stmt "Effect" "Deny" &&
  fieldIsStr stmt "Principal" "*" && fieldIsStr stmt "Action" "s3:*" &&
  (match jfield stmt "Resource" with
   | some r => resourceExact bucket_name r
   | _ => false) &&
  (match jfield stmt "Condition" with
   | some c => condExact c
   | _ => false)

/-- C2 is false on the code: the canonical statement of a different
bucket carries the wrong resource ARNs for "mybucket", so it does not
match the canonical shape for "mybucket", yet the code's classifier
counts it as a complete statement (the resource values are never
compared). -/
theorem C2_counterexample :
    hasCompleteCheck (create_deny_http_statement "other-bucket") = .ok true ∧
    specCanonicalComplete "mybucket" (create_deny_http_statement "other-bucket") = false ∧
    specCanonicalComplete "other-bucket" (create_deny_http_statement "other-bucket") = true :=
  ⟨rfl, rfl, rfl⟩

/-- C2 amended: the classifier counts a statement as "complete" if and
only if its Sid, Effect, Principal and Action are the canonical
strings, its `Resource` is a list of exactly two elements (the values,
in particular the ARNs, are not checked), and its
`Condition.Bool.aws:SecureTransport` entry is the string "false"
(extra condition keys are allowed); the same field predicate also
governs the keep-or-drop classification of the statement scan, so a
deny-on-insecure-transport statement failing one of these checks is
classified incomplete. -/
theorem C2_amended (stmt : JVal) :
    (∀ b, hasCompleteCheck stmt = .ok b → b = completeFields stmt) ∧
    (∀ c, isHttpDenyCheck stmt = .ok true → isCompleteCheck stmt = .ok c →
        c = completeFields stmt) := by
  constructor
  · intro b h
    cases stmt with
    | obj fs =>
      simp only [hasCompleteCheck, pyGet, pyGetD] at h
      repeat' split at h
      all_goals try (injection h with e; subst e)
      all_goals try (have hcc := condChain_ok_eq_spec fs b h; subst hcc)
      all_goals simp_all [completeFields, fieldIsStr_eq, resourceIsPair_not_list,
        condBoolSTFalse_not_dict, resourceIsPair_arr]
      all_goals
        exfalso
        rename_i hlist hne
        obtain ⟨xs2, hxs2⟩ := isList_arr _ hlist
        exact hne xs2 hxs2
    | none => simp [hasCompleteCheck, pyGet, pyGetD] at h
    | str s => simp [hasCompleteCheck, pyGet, pyGetD] at h
    | arr xs => simp [hasCompleteCheck, pyGet, pyGetD] at h
  · intro c h1 h2
    cases stmt with
    | obj fs =>
      simp only [isHttpDenyCheck, pyGet, pyGetD] at h1
      split at h1
      · simp at h1
      case _ heff =>
        have hcc := condChain_ok_eq_spec fs true h1
        simp only [isCompleteCheck, pyGet, pyGetD] at h2
        repeat' split at h2
        all_goals try (injection h2 with e; subst e)
        all_goals simp_all [completeFields, fieldIsStr_eq, resourceIsPair_not_list,
          resourceIsPair_arr]
        all_goals
          exfalso
          rename_i hlist hne
          obtain ⟨xs2, hxs2⟩ := isList_arr _ hlist
          exact hne xs2 hxs2
    | none => simp [isHttpDenyCheck, pyGet, pyGetD] at h1
    | str s => simp [isHttpDenyCheck, pyGet, pyGetD] at h1
    | arr xs => simp [isHttpDenyCheck, pyGet, pyGetD] at h1

/-- Witness for `C2_amended` at the canonical statement. -/
theorem C2_amended_witness :
    true = completeFields (create_deny_http_statement "mybucket") :=
  (C2_amended (create_deny_http_statement "mybucket")).1 true rfl

/-! ## C4 and C6: logging reconciliation and dry-run framing -/

theorem get_logging_status_getFails (account : String) (ls : LogStore)
    (h : ls.getFails = true) : get_logging_status account ls = "error" := by
  simp [get_logging_status, get_bucket_logging, h]

theorem enable_dry (account : String) (ls : LogStore) :
    enable_access_logging account ls true = (true, ls) := by
  unfold enable_access_logging
  by_cases h1 : get_logging_status account ls == "enabled" <;>
    by_cases h2 : get_logging_status account ls == "enabled_other" <;>
    simp [h1, h2]

theorem loggingPart_dry (account : String) (ls : LogStore) :
    loggingPart account ls true = ((get_logging_status account ls, true), ls) := by
  simp [loggingPart, enable_dry]

/-- With a failing logging read, the reported status is always `error`
(the post-write re-read fails the same way) and the success flag is
false only when an actual write attempt fails. -/
theorem loggingPart_getFails (account : String) (ls : LogStore) (dry : Bool)
    (h : ls.getFails = true) :
    (loggingPart account ls dry).1.1 = "error" ∧
    (loggingPart account ls dry).1.2 = (dry || !ls.putFails) := by
  unfold loggingPart enable_access_logging put_bucket_logging
  cases dry <;> by_cases hpf : ls.putFails <;>
    simp [get_logging_status_getFails, h, hpf]

/-- With a successful read but a failing write, the pre-write status is
retained and the success flag is false. -/
theorem loggingPart_put_fails (account : String) (ls : LogStore)
    (hp : ls.putFails = true)
    (hne : get_logging_status account ls ≠ "enabled") :
    loggingPart account ls false = ((get_logging_status account ls, false), ls) := by
  have hne2 : (get_logging_status account ls == "enabled") = false := by
    simp [hne]
  unfold loggingPart enable_access_logging put_bucket_logging
  by_cases h2 : get_logging_status account ls == "enabled_other" <;>
    simp [hne2, h2, hp]

/-- Decomposition of a successful `apply_baseline_to_bucket` run with
`http_only = false`: the logging fields come from `loggingPart` and the
policy fields from `apply_deny_http_policy` (or the skip record). -/
theorem baseline_ok_elim (account bucket : String) (pread : PolicyReadResult)
    (ppf : Bool) (ls : LogStore) (dry lo : Bool)
    (r : BucketResult) (w : Option JVal) (ls1 : LogStore)
    (h : apply_baseline_to_bucket account bucket pread ppf ls dry false lo = .ok (r, w, ls1)) :
    r.access_logging = (loggingPart account ls dry).1.2 ∧
    r.logging_status = (loggingPart account ls dry).1.1 ∧
    ls1 = (loggingPart account ls dry).2 ∧
    (lo = false → ∃ pres, apply_deny_http_policy bucket pread dry ppf = .ok (pres, w) ∧
       r.deny_http = pres.success ∧ r.deny_http_status = pres.status) ∧
    (lo = true → w = Option.none ∧ r.deny_http_status = "skipped") := by
  unfold apply_baseline_to_bucket at h
  cases lo with
  | false =>
    cases hpol : apply_deny_http_policy bucket pread dry ppf with
    | error e =>
      rw [hpol] at h
      simp at h
    | ok pw =>
      obtain ⟨pres, written⟩ := pw
      rw [hpol] at h
      simp at h
      obtain ⟨h1, h2, h3⟩ := h
      refine ⟨?_, ?_, ?_, ?_, ?_⟩
      · rw [← h1]
      · rw [← h1]
      · rw [← h3]
      · intro hlo
        exact ⟨pres, by rw [h2], by rw [← h1], by rw [← h1]⟩
      · intro hlo
        cases hlo
  | true =>
    simp at h
    obtain ⟨h1, h2, h3⟩ := h
    refine ⟨?_, ?_, ?_, ?_, ?_⟩
    · rw [← h1]
    · rw [← h1]
    · rw [← h3]
    · intro hlo
      cases hlo
    · intro hlo
      exact ⟨h2.symm, by rw [← h1]⟩

/-- Under dry-run the reconciliation core performs no policy write. -/
theorem reconcile_written_none_dry (b : String) (po : Option JVal) (pf : Bool)
    (res : ApplyResult) (w : Option JVal)
    (h : reconcilePolicy b po true pf = .ok (res, w)) : w = Option.none := by
  unfold reconcilePolicy at h
  obtain ⟨sv, stmts, hc, inc, ns, hsv, hstmts, hhc, hscan, hbr⟩ :=
    reconcileDoc_inv _ _ _ _ _ _ _ h
  rcases hbr with ⟨_, _, hf⟩ | ⟨_, _, _, hw⟩ | ⟨_, hf⟩
  · rw [finishWrite_dry] at hf
    injection hf with e
    injection e with e1 e2
    exact e2.symm
  · exact hw
  · rw [finishWrite_dry] at hf
    injection hf with e
    injection e with e1 e2
    exact e2.symm

/-- Decomposition of a successful `apply_baseline_to_bucket` run with
`http_only = true`: the logging store is untouched and the logging
status is `skipped`. -/
theorem baseline_http_only_elim (account bucket : String) (pread : PolicyReadResult)
    (ppf : Bool) (ls : LogStore) (dry lo : Bool)
    (r : BucketResult) (w : Option JVal) (ls1 : LogStore)
    (h : apply_baseline_to_bucket account bucket pread ppf ls dry true lo = .ok (r, w, ls1)) :
    ls1 = ls ∧ r.logging_status = "skipped" ∧
    (lo = false → ∃ pres, apply_deny_http_policy bucket pread dry ppf = .ok (pres, w)) ∧
    (lo = true → w = Option.none) := by
  unfold apply_baseline_to_bucket at h
  cases lo with
  | false =>
    cases hpol : apply_deny_http_policy bucket pread dry ppf with
    | error e =>
      rw [hpol] at h
      simp at h
    | ok pw =>
      obtain ⟨pres, written⟩ := pw
      rw [hpol] at h
      simp at h
      obtain ⟨h1, h2, h3⟩ := h
      refine ⟨by rw [← h3], by rw [← h1], ?_, ?_⟩
      · intro hlo
        exact ⟨pres, by rw [h2]⟩
      · intro hlo
        cases hlo
  | true =>
    simp at h
    obtain ⟨h1, h2, h3⟩ := h
    refine ⟨by rw [← h3], by rw [← h1], ?_, ?_⟩
    · intro hlo
      cases hlo
    · intro hlo
      exact h2.symm

/-- C6: for every bucket and every computed status, when dry-run mode
is active `apply_baseline_to_bucket` performs neither a policy-store
write (the written-document component is empty) nor a logging-store
write (the logging store is returned exactly as it was), in every
`http_only`/`logging_only` configuration. -/
theorem C6_dry_run_no_writes (account bucket : String) (pread : PolicyReadResult)
    (ppf : Bool) (ls : LogStore) (ho lo : Bool) (r : BucketResult)
    (w : Option JVal) (ls1 : LogStore)
    (h : apply_baseline_to_bucket account bucket pread ppf ls true ho lo = .ok (r, w, ls1)) :
    w = Option.none ∧ ls1 = ls := by
  cases ho with
  | false =>
    obtain ⟨_, _, hl, hlo_f, hlo_t⟩ :=
      baseline_ok_elim account bucket pread ppf ls true lo r w ls1 h
    have hls : ls1 = ls := by rw [hl, loggingPart_dry]
    cases lo with
    | false =>
      obtain ⟨pres, hpres, _, _⟩ := hlo_f rfl
      exact ⟨reconcile_written_none_dry bucket _ ppf pres w hpres, hls⟩
    | true => exact ⟨(hlo_t rfl).1, hls⟩
  | true =>
    obtain ⟨hls, _, hlo_f, hlo_t⟩ :=
      baseline_http_only_elim account bucket pread ppf ls true lo r w ls1 h
    cases lo with
    | false =>
      obtain ⟨pres, hpres⟩ := hlo_f rfl
      exact ⟨reconcile_written_none_dry bucket _ ppf pres w hpres, hls⟩
    | true => exact ⟨hlo_t rfl, hls⟩

/-- Witness for `C6_dry_run_no_writes` on a bucket with no policy and
no logging configuration. -/
theorem C6_dry_run_no_writes_witness :
    (Option.none : Option JVal) = Option.none ∧
    (⟨false, Option.none, false⟩ : LogStore) = ⟨false, Option.none, false⟩ :=
  C6_dry_run_no_writes "123456789012" "mybucket" .noSuchPolicy false
    ⟨false, Option.none, false⟩ false false ⟨false, "not_applied", true, "disabled"⟩
    Option.none ⟨false, Option.none, false⟩ rfl

/-- C4 is false on the code: with a failing logging read under dry-run,
the bucket record reports `logging_status = "error"` but
`access_logging = true` — `enable_access_logging` treats the `error`
status like `disabled`, reaches the dry-run branch and returns success
— whereas the claim requires `success = false` whenever the read
fails. -/
theorem C4_counterexample :
    apply_baseline_to_bucket "123456789012" "mybucket" .noSuchPolicy false
      ⟨true, Option.none, false⟩ true false false =
      .ok (⟨false, "not_applied", true, "error"⟩, Option.none, ⟨true, Option.none, false⟩) ∧
    (⟨false, "not_applied", true, "error"⟩ : BucketResult).access_logging = true :=
  ⟨rfl, rfl⟩

/-- C4 amended: if the logging read fails, the bucket's
`logging_status` is reported as `error`, but the success flag is not
forced to false: it is `true` under dry-run, and under apply mode it
reflects the subsequent write attempt (false exactly when the write
also fails).  If the read succeeds but a subsequent write fails
(apply mode, store not already canonical), `success = false` is
returned and the last successfully-read status is retained. -/
theorem C4_amended (account bucket : String) (pread : PolicyReadResult)
    (ppf : Bool) (ls : LogStore) (dry : Bool) (r : BucketResult)
    (w : Option JVal) (ls1 : LogStore)
    (h : apply_baseline_to_bucket account bucket pread ppf ls dry false false = .ok (r, w, ls1)) :
    (ls.getFails = true → r.logging_status = "error" ∧
       r.access_logging = (dry || !ls.putFails)) ∧
    (ls.putFails = true → dry = false → get_logging_status account ls ≠ "enabled" →
       r.access_logging = false ∧ r.logging_status = get_logging_status account ls) := by
  obtain ⟨ha, hs, _, _, _⟩ := baseline_ok_elim account bucket pread ppf ls dry false r w ls1 h
  constructor
  · intro hg
    obtain ⟨e1, e2⟩ := loggingPart_getFails account ls dry hg
    exact ⟨hs.trans e1, ha.trans e2⟩
  · intro hp hdry hne
    subst hdry
    rw [loggingPart_put_fails account ls hp hne] at ha hs
    exact ⟨ha, hs⟩

/-- Witness for `C4_amended` at a store whose reads fail, under
dry-run. -/
theorem C4_amended_witness :
    (true = true → ("error" : String) = "error" ∧ true = true) ∧
    (false = true → true = false →
      get_logging_status "123456789012" ⟨true, Option.none, false⟩ ≠ "enabled" →
      true = false ∧
      ("error" : String) = get_logging_status "123456789012" ⟨true, Option.none, false⟩) :=
  C4_amended "123456789012" "mybucket" .noSuchPolicy false ⟨true, Option.none, false⟩
    true ⟨false, "not_applied", true, "error"⟩ Option.none ⟨true, Option.none, false⟩ rfl

/-! ## C8 and C9: orchestration over many buckets -/

/-- The record a bucket ends up with in the all-buckets loop: the
computed result, or `errorResult` when processing raised. -/
def processedResult (process : String → Except PyErr BucketResult) (b : String) :
    BucketResult :=
  match process b with
  | .ok r => r
  | .error _ => errorResult

theorem all_buckets_fold (process : String → Except PyErr BucketResult)
    (buckets : List String) :
    ∀ acc : List (String × BucketResult) × Nat,
      (buckets.foldl
        (fun acc b =>
          match process b with
          | .ok r => (acc.1 ++ [(b, r)], if allValuesTruthy r then acc.2 + 1 else acc.2)
          | .error _ => (acc.1 ++ [(b, errorResult)], acc.2)) acc).1
      = acc.1 ++ buckets.map (fun b => (b, processedResult process b)) := by
  induction buckets with
  | nil =>
    intro acc
    simp
  | cons hd tl ih =>
    intro acc
    simp only [List.foldl_cons, List.map_cons]
    rw [ih]
    cases hp : process hd with
    | ok r => simp [hp, processedResult]
    | error e => simp [hp, processedResult]

theorem all_buckets_results (process : String → Except PyErr BucketResult)
    (buckets : List String) :
    (apply_baseline_to_all_buckets process buckets).1 =
      buckets.map (fun b => (b, processedResult process b)) := by
  unfold apply_baseline_to_all_buckets
  rw [all_buckets_fold]
  simp

theorem map_fst_pairs (process : String → Except PyErr BucketResult) :
    ∀ l : List String,
      (l.map (fun b => (b, processedResult process b))).map Prod.fst = l := by
  intro l
  induction l with
  | nil => rfl
  | cons hd tl ih => simp [ih]

/-- C9: in the all-buckets run, the loop records one result per bucket
in enumeration order (so an exception in one bucket never aborts the
batch), and every bucket whose processing raises an uncaught exception
gets the record with `deny_http_status = "error"`,
`logging_status = "error"` and both success flags false. -/
theorem C9_error_recovery (process : String → Except PyErr BucketResult)
    (buckets : List String) (b : String) (e : PyErr)
    (hb : b ∈ buckets) (he : process b = .error e) :
    (apply_baseline_to_all_buckets process buckets).1.map Prod.fst = buckets ∧
    (b, errorResult) ∈ (apply_baseline_to_all_buckets process buckets).1 := by
  constructor
  · rw [all_buckets_results]
    exact map_fst_pairs process buckets
  · rw [all_buckets_results]
    refine List.mem_map.mpr ⟨b, hb, ?_⟩
    simp [processedResult, he]

/-- Witness for `C9_error_recovery` with a single bucket whose
processing raises. -/
theorem C9_error_recovery_witness :
    ((apply_baseline_to_all_buckets (fun _ => .error .attributeError) ["bucket-a"]).1.map
        Prod.fst = ["bucket-a"]) ∧
    ("bucket-a", errorResult) ∈
      (apply_baseline_to_all_buckets
        (fun _ => .error (PyErr.attributeError)) ["bucket-a"]).1 :=
  C9_error_recovery (fun _ => .error .attributeError) ["bucket-a"] "bucket-a"
    .attributeError (List.mem_singleton.mpr rfl) rfl

/-- C8: a bucket named both by the exclusion list and by explicit
single-bucket targeting is still processed (the `--bucket` path never
consults the exclusion list), while the same bucket is filtered out of
the enumerate-all path; the central log bucket
`access-logs-<accountId>` is filtered out of the enumerate-all path
even when it is not in the user's exclusion list. -/
theorem C8_exclusion_scope (account b : String) (exclude : List String)
    (allB : List String) (listRes : Option (List String)) (r : BucketResult)
    (process : String → Except PyErr BucketResult)
    (hb : b ∈ exclude) (hr : process b = .ok r) :
    main_model false false (some b) listRes account exclude process = .report [(b, r)] ∧
    b ∉ (get_all_buckets (some allB) account exclude).1 ∧
    ("access-logs-" ++ account) ∉ (get_all_buckets (some allB) account exclude).1 := by
  refine ⟨?_, ?_, ?_⟩
  · simp [main_model, hr]
  · intro hmem
    simp only [get_all_buckets] at hmem
    by_cases hlog : exclude.contains ("access-logs-" ++ account)
    · rw [if_pos hlog] at hmem
      have hp := (List.mem_filter.mp hmem).2
      simp at hp
      exact hp hb
    · rw [if_neg hlog] at hmem
      have hp := (List.mem_filter.mp hmem).2
      simp at hp
      exact hp.1 hb
  · intro hmem
    simp only [get_all_buckets] at hmem
    by_cases hlog : exclude.contains ("access-logs-" ++ account)
    · rw [if_pos hlog] at hmem
      have hp := (List.mem_filter.mp hmem).2
      simp at hp
      simp at hlog
      exact hp hlog
    · rw [if_neg hlog] at hmem
      have hp := (List.mem_filter.mp hmem).2
      simp at hp

/-- Witness for `C8_exclusion_scope`: "mybucket" is excluded yet still
processed when targeted explicitly. -/
theorem C8_exclusion_scope_witness :
    main_model false false (some "mybucket") (some ["mybucket", "other"]) "123456789012"
      ["mybucket"] (fun _ => .ok ⟨true, "applied", true, "enabled"⟩) =
      .report [("mybucket", ⟨true, "applied", true, "enabled"⟩)] ∧
    "mybucket" ∉
      (get_all_buckets (some ["mybucket", "other"]) "123456789012" ["mybucket"]).1 ∧
    ("access-logs-" ++ "123456789012") ∉
      (get_all_buckets (some ["mybucket", "other"]) "123456789012" ["mybucket"]).1 :=
  C8_exclusion_scope "123456789012" "mybucket" ["mybucket"] ["mybucket", "other"]
    (some ["mybucket", "other"]) ⟨true, "applied", true, "enabled"⟩
    (fun _ => .ok ⟨true, "applied", true, "enabled"⟩) (List.mem_singleton.mpr rfl) rfl
